import Mathlib

/-!
Verification development for the hermes resource-aggregation API
(`src/hermes/handlers/api.py`, routed by `src/hermes/routes.py`).

The handlers are shallowly embedded as pure Lean functions over an explicit
database value `DB`.  SQLAlchemy query chains are embedded as list
operations: `filter_by` becomes `List.filter`, `ORDER BY key` becomes a
stable insertion sort on a `Nat` key, `LIMIT l OFFSET o` becomes
`(·.drop o).take l`, `.first()` becomes `List.head?`, `.scalar()` becomes
`List.head?` of the filtered list.  Raised request errors
(`exc.BadRequest` / `exc.NotFound` / `exc.Conflict`) become `Except.error`;
an access that would raise an unguarded `AttributeError` in Python (reading
an attribute of `None`) is embedded as `Option.none` around the result.

Definitions for repository code that lives outside `src/`
(`hermes/models.py`, `hermes/handlers/util.py`) carry a doc comment starting
with `Modelled from the spec:` and follow the wording of `spec.md`.
-/

namespace Hermes

/-! ### Ordering of query results (ORDER BY on a numeric key) -/

/-- Ascending comparison of two rows by a numeric sort key. -/
def keyLe {α : Type} (k : α → Nat) (a b : α) : Prop := k a ≤ k b

/-- Descending comparison of two rows by a numeric sort key. -/
def keyGe {α : Type} (k : α → Nat) (a b : α) : Prop := k b ≤ k a

instance {α : Type} (k : α → Nat) : DecidableRel (keyLe k) :=
  fun a b => Nat.decLe (k a) (k b)

instance {α : Type} (k : α → Nat) : DecidableRel (keyGe k) :=
  fun a b => Nat.decLe (k b) (k a)

instance {α : Type} (k : α → Nat) : IsTotal α (keyLe k) :=
  ⟨fun a b => Nat.le_total (k a) (k b)⟩

instance {α : Type} (k : α → Nat) : IsTrans α (keyLe k) :=
  ⟨fun _ _ _ h₁ h₂ => Nat.le_trans h₁ h₂⟩

instance {α : Type} (k : α → Nat) : IsTotal α (keyGe k) :=
  ⟨fun a b => Nat.le_total (k b) (k a)⟩

instance {α : Type} (k : α → Nat) : IsTrans α (keyGe k) :=
  ⟨fun _ _ _ h₁ h₂ => Nat.le_trans h₂ h₁⟩

/-- `ORDER BY k ASC` over a list of rows (stable). -/
def orderByKey {α : Type} (k : α → Nat) (l : List α) : List α :=
  List.insertionSort (keyLe k) l

/-- `ORDER BY k DESC` over a list of rows (stable). -/
def orderByKeyDesc {α : Type} (k : α → Nat) (l : List α) : List α :=
  List.insertionSort (keyGe k) l

theorem sorted_orderByKey {α : Type} (k : α → Nat) (l : List α) :
    List.Sorted (keyLe k) (orderByKey k l) :=
  List.sorted_insertionSort (keyLe k) l

theorem sorted_orderByKeyDesc {α : Type} (k : α → Nat) (l : List α) :
    List.Sorted (keyGe k) (orderByKeyDesc k l) :=
  List.sorted_insertionSort (keyGe k) l

theorem orderByKey_perm {α : Type} (k : α → Nat) (l : List α) :
    List.Perm (orderByKey k l) l :=
  List.perm_insertionSort (keyLe k) l

theorem orderByKeyDesc_perm {α : Type} (k : α → Nat) (l : List α) :
    List.Perm (orderByKeyDesc k l) l :=
  List.perm_insertionSort (keyGe k) l

theorem orderByKey_eq_of_sorted {α : Type} {k : α → Nat} {l : List α}
    (h : List.Sorted (keyLe k) l) : orderByKey k l = l :=
  List.Sorted.insertionSort_eq h

theorem sorted_drop {α : Type} {R : α → α → Prop} {l : List α}
    (h : List.Sorted R l) (n : Nat) : List.Sorted R (l.drop n) :=
  List.Pairwise.sublist (List.drop_sublist n l) h

theorem sorted_take {α : Type} {R : α → α → Prop} {l : List α}
    (h : List.Sorted R l) (n : Nat) : List.Sorted R (l.take n) :=
  List.Pairwise.sublist (List.take_sublist n l) h

/-- Re-sorting an already ascending window is the identity: this is what the
`.from_self().order_by(key)` step does to a window cut out of a query whose
base order is already ascending on the same key. -/
theorem orderByKey_window_of_sorted {α : Type} {k : α → Nat} {l : List α}
    (h : List.Sorted (keyLe k) l) (o n : Nat) :
    orderByKey k ((l.drop o).take n) = (l.drop o).take n :=
  orderByKey_eq_of_sorted (sorted_take (sorted_drop h o) n)

/-- The largest key occurring in a list of rows (0 for the empty list). -/
def maxKey {α : Type} (k : α → Nat) (l : List α) : Nat :=
  l.foldr (fun a m => max (k a) m) 0

theorem maxKey_cons {α : Type} (k : α → Nat) (a : α) (l : List α) :
    maxKey k (a :: l) = max (k a) (maxKey k l) := rfl

theorem le_maxKey {α : Type} (k : α → Nat) {l : List α} {a : α}
    (ha : a ∈ l) : k a ≤ maxKey k l := by
  induction l with
  | nil => cases ha
  | cons b t ih =>
    rw [maxKey_cons]
    rcases List.mem_cons.mp ha with rfl | ha
    · exact Nat.le_max_left _ _
    · exact Nat.le_trans (ih ha) (Nat.le_max_right _ _)

theorem maxKey_mem {α : Type} (k : α → Nat) {l : List α} (h : l ≠ []) :
    ∃ a ∈ l, maxKey k l = k a := by
  induction l with
  | nil => exact absurd rfl h
  | cons b t ih =>
    cases t with
    | nil =>
      refine ⟨b, List.mem_cons_self b [], ?_⟩
      simp [maxKey_cons, maxKey]
    | cons c u =>
      rcases ih (by simp) with ⟨a, ha, hmax⟩
      rw [maxKey_cons]
      by_cases hb : maxKey k (c :: u) ≤ k b
      · exact ⟨b, List.mem_cons_self b _, by omega⟩
      · exact ⟨a, List.mem_cons_of_mem b ha, by omega⟩

/-- The head of a descending sort of a nonempty list carries the maximal key. -/
theorem head_orderByKeyDesc {α : Type} (k : α → Nat) {l : List α} (h : l ≠ []) :
    ∃ a, (orderByKeyDesc k l).head? = some a ∧ k a = maxKey k l := by
  have hperm := orderByKeyDesc_perm k l
  have hne : orderByKeyDesc k l ≠ [] := by
    intro hnil
    exact h (List.Perm.eq_nil ((hnil ▸ hperm).symm))
  rcases List.exists_cons_of_ne_nil hne with ⟨a, t, ht⟩
  refine ⟨a, by simp [ht], ?_⟩
  have hsorted := sorted_orderByKeyDesc k l
  rw [ht] at hsorted hperm
  have hub : ∀ b ∈ l, k b ≤ k a := by
    intro b hb
    have hb' : b ∈ a :: t := (List.Perm.mem_iff hperm).2 hb
    rcases List.mem_cons.mp hb' with rfl | hb'
    · exact Nat.le_refl _
    · exact List.rel_of_sorted_cons hsorted b hb'
  have hamem : a ∈ l := (List.Perm.mem_iff hperm).1 (List.mem_cons_self a t)
  have h₁ : k a ≤ maxKey k l := le_maxKey k hamem
  rcases maxKey_mem k h with ⟨c, hc, hmax⟩
  have h₂ : maxKey k l ≤ k a := hmax ▸ hub c hc
  omega

/-! ### Data model (`hermes/models.py` rows, as rendered by the handlers) -/

/-- A managed host: numeric id and unique hostname. -/
structure Host where
  id : Nat
  hostname : String
deriving DecidableEq

/-- A catalog entry classifying events: category, state, description. -/
structure EventType where
  id : Nat
  category : String
  state : String
  description : String
deriving DecidableEq

/-- A timestamped occurrence reported against a Host, classified by an
EventType.  Timestamps are embedded as `Nat`. -/
structure Event where
  id : Nat
  hostId : Nat
  eventTypeId : Nat
  timestamp : Nat
  note : String
deriving DecidableEq

/-- A grouping of labors. -/
structure Quest where
  id : Nat
deriving DecidableEq

/-- A unit of work tied to one Host and belonging to one Quest. -/
structure Labor where
  id : Nat
  hostId : Nat
  questId : Nat
  creation_time : Nat
deriving DecidableEq

/-- An action associated with an EventType. -/
structure Fate where
  id : Nat
  eventTypeId : Nat
deriving DecidableEq

/-- The stored data visible through `self.session`, plus the id counter the
store uses to assign numeric ids on creation. -/
structure DB where
  hosts : List Host
  eventTypes : List EventType
  events : List Event
  labors : List Labor
  quests : List Quest
  fates : List Fate
  nextId : Nat
deriving DecidableEq

/-! ### Repository queries -/

/-- `self.session.query(Host).filter_by(hostname=hostname).scalar()`. -/
def findHost (db : DB) (hostname : String) : Option Host :=
  (db.hosts.filter (fun h => h.hostname = hostname)).head?

/-- `self.session.query(EventType).filter_by(id=id).scalar()`. -/
def findEventType (db : DB) (id : Nat) : Option EventType :=
  (db.eventTypes.filter (fun et => et.id = id)).head?

/-- Modelled from the spec: the `labor.quest` back-reference of
`hermes/models.py` (not under `src/`) — "exactly one Quest per Labor
(back-reference, not owned by this core)".  Resolves the owning quest of a
labor by its quest id; `none` embeds a dangling reference, whose use would
raise in Python. -/
def findQuest (db : DB) (questId : Nat) : Option Quest :=
  (db.quests.filter (fun q => q.id = questId)).head?

/-- The events recorded against a host (the base collection behind
`host.get_latest_events()`). -/
def eventsForHost (db : DB) (host : Host) : List Event :=
  db.events.filter (fun e => e.hostId = host.id)

/-- Modelled from the spec: `Host.get_latest_events` of `hermes/models.py`
(not under `src/`) — the "latestEventsFor(host) (full ordered sequence)"
repository query, ordered so that `.first()` yields "the single latest event
(the event with the maximum timestamp)", i.e. by timestamp descending. -/
def getLatestEvents (db : DB) (host : Host) : List Event :=
  orderByKeyDesc (fun e => e.timestamp) (eventsForHost db host)

/-- Modelled from the spec: `Host.get_labors` of `hermes/models.py` (not
under `src/`) — "the host's Labor collection ordered by creation time
ascending". -/
def getLabors (db : DB) (host : Host) : List Labor :=
  orderByKey (fun lb => lb.creation_time) (db.labors.filter (fun lb => lb.hostId = host.id))

/-- Modelled from the spec: `EventType.get_latest_events` of
`hermes/models.py` (not under `src/`) — the event collection of an event
type, ordered like the host variant (timestamp descending, latest first). -/
def etLatestEvents (db : DB) (et : EventType) : List Event :=
  orderByKeyDesc (fun e => e.timestamp) (db.events.filter (fun e => e.eventTypeId = et.id))

/-- Modelled from the spec: `EventType.get_associated_fates` of
`hermes/models.py` (not under `src/`) — "associatedFates(eventType) →
unpaginated sequence", the full set of fates associated with the event
type. -/
def getAssociatedFates (db : DB) (et : EventType) : List Fate :=
  db.fates.filter (fun f => f.eventTypeId = et.id)

/-! ### Representations, links, errors and replies -/

/-- A related entity rendered in a composite document: either the full
representation (`entity.to_dict(...)`, carrying the whole entity) or the
minimal reference dict holding exactly the numeric id and the href. -/
inductive Rep (α : Type) where
  | full (entity : α)
  | ref (id : Nat) (href : String)
deriving DecidableEq

/-- Modelled from the spec: `Labor.href` of `hermes/models.py` (not under
`src/`) — the canonical link path of a labor. -/
def laborHref (id : Nat) : String := "/api/v1/labors/" ++ toString id

/-- Modelled from the spec: `Quest.href` of `hermes/models.py` (not under
`src/`) — the canonical link path of a quest. -/
def questHref (id : Nat) : String := "/api/v1/quests/" ++ toString id

/-- Modelled from the spec: `Event.href` of `hermes/models.py` (not under
`src/`) — the canonical link path of an event. -/
def eventHref (id : Nat) : String := "/api/v1/events/" ++ toString id

/-- Modelled from the spec: `Fate.href` of `hermes/models.py` (not under
`src/`) — the canonical link path of a fate. -/
def fateHref (id : Nat) : String := "/api/v1/fates/" ++ toString id

/-- The inline expand test of `HostHandler.get` for a labor:
`labor.to_dict(...)` when `"labors" in expand`, else the `{id, href}`
reference. -/
def selectLabor (expand : List String) (lb : Labor) : Rep Labor :=
  if "labors" ∈ expand then Rep.full lb else Rep.ref lb.id (laborHref lb.id)

/-- The inline expand test of `HostHandler.get` for the owning quest. -/
def selectQuest (expand : List String) (q : Quest) : Rep Quest :=
  if "quests" ∈ expand then Rep.full q else Rep.ref q.id (questHref q.id)

/-- The inline expand test for an event (in both `HostHandler.get` and
`EventTypeHandler.get`). -/
def selectEvent (expand : List String) (e : Event) : Rep Event :=
  if "events" ∈ expand then Rep.full e else Rep.ref e.id (eventHref e.id)

/-- The inline expand test of `EventTypeHandler.get` for a fate. -/
def selectFate (expand : List String) (f : Fate) : Rep Fate :=
  if "fates" ∈ expand then Rep.full f else Rep.ref f.id (fateHref f.id)

/-- The raised request errors of `hermes.exc` used by these handlers. -/
inductive Err where
  | badRequest (msg : String)
  | notFound (msg : String)
  | conflict (msg : String)
deriving DecidableEq

/-! ### Pagination windows -/

/-- The labor window of `HostHandler.get`:
`host.get_labors().limit(limit).offset(offset).from_self().order_by(Labor.creation_time)`.
`LIMIT limit OFFSET offset` keeps rows `[offset, offset+limit)` of the base
order; the outer `order_by` re-sorts that window ascending. -/
def laborsWindow (db : DB) (host : Host) (offset limit : Nat) : List Labor :=
  orderByKey (fun lb => lb.creation_time) (((getLabors db host).drop offset).take limit)

/-- The event window of `HostHandler.get`:
`host.get_latest_events().limit(limit).offset(offset).from_self().order_by(Event.timestamp)`. -/
def eventsWindow (db : DB) (host : Host) (offset limit : Nat) : List Event :=
  orderByKey (fun e => e.timestamp) (((getLatestEvents db host).drop offset).take limit)

/-- The event window of `EventTypeHandler.get`:
`event_type.get_latest_events().limit(limit).offset(offset).from_self().order_by(Event.timestamp)`. -/
def etEventsWindow (db : DB) (et : EventType) (offset limit : Nat) : List Event :=
  orderByKey (fun e => e.timestamp) (((etLatestEvents db et).drop offset).take limit)

/-! ### Handlers -/

/-- The labors/quests loop of `HostHandler.get`: one pass over the windowed
labors, appending to the `labors` list and, for the same labor, its owning
quest to the `quests` list.  A labor whose quest back-reference does not
resolve makes the Python loop raise on `labor.quest.id`; that is embedded
as `none`. -/
def renderLaborsQuests (db : DB) (expand : List String) :
    List Labor → Option (List (Rep Labor) × List (Rep Quest))
  | [] => some ([], [])
  | lb :: rest =>
    match findQuest db lb.questId, renderLaborsQuests db expand rest with
    | some q, some (ls, qs) => some (selectLabor expand lb :: ls, selectQuest expand q :: qs)
    | _, _ => none

/-- The composite document assembled by `HostHandler.get`
(`host.to_dict` fields, the shared pagination values, the paired
labors/quests arrays, the textual `lastEvent` timestamp and the windowed
events). -/
structure HostDoc where
  id : Nat
  hostname : String
  limit : Nat
  offset : Nat
  labors : List (Rep Labor)
  quests : List (Rep Quest)
  lastEvent : String
  events : List (Rep Event)
deriving DecidableEq

/-- `HostHandler.get` (`src/hermes/handlers/api.py` lines 119-196).  The
outer `Option` embeds the unguarded Python accesses: `none` is the
`AttributeError` raised either on `labor.quest` for a dangling quest
reference or on `last_event.timestamp` when
`host.get_latest_events().first()` is `None`. -/
def hostGet (db : DB) (hostname : String) (offset limit : Nat) (expand : List String) :
    Option (Except Err HostDoc) :=
  match findHost db hostname with
  | none => some (.error (.notFound ("No such Host " ++ hostname ++ " found")))
  | some host =>
    match renderLaborsQuests db expand (laborsWindow db host offset limit) with
    | none => none
    | some (laborList, questList) =>
      match (getLatestEvents db host).head? with
      | none => none
      | some lastEvent =>
        some (.ok
          { id := host.id
            hostname := host.hostname
            limit := limit
            offset := offset
            labors := laborList
            quests := questList
            lastEvent := toString lastEvent.timestamp
            events := (eventsWindow db host offset limit).map (selectEvent expand) })

/-- The composite document assembled by `EventTypeHandler.get`.  The fates
array is rendered under the singular key `fate`, as in the source. -/
structure EventTypeDoc where
  id : Nat
  category : String
  state : String
  description : String
  limit : Nat
  offset : Nat
  events : List (Rep Event)
  fate : List (Rep Fate)
deriving DecidableEq

/-- `EventTypeHandler.get` (`src/hermes/handlers/api.py` lines 402-464):
windowed events plus the full unpaginated associated fates. -/
def eventTypeGet (db : DB) (id : Nat) (offset limit : Nat) (expand : List String) :
    Except Err EventTypeDoc :=
  match findEventType db id with
  | none => .error (.notFound ("No such EventType " ++ toString id ++ " found"))
  | some et =>
    .ok
      { id := et.id
        category := et.category
        state := et.state
        description := et.description
        limit := limit
        offset := offset
        events := (etEventsWindow db et offset limit).map (selectEvent expand)
        fate := (getAssociatedFates db et).map (selectFate expand) }

/-- Modelled from the spec: `EventType.update(description=...)` of
`hermes/models.py` (not under `src/`) — "Only `description` is mutable
after creation"; the update writes the given description and touches
nothing else. -/
def eventTypeUpdate (db : DB) (id : Nat) (description : String) : DB :=
  { db with
    eventTypes := db.eventTypes.map
      (fun et => if et.id = id then { et with description := description } else et) }

/-- The reply body of `EventTypeHandler.put`: `{"eventType": ...to_dict()}`. -/
structure EventTypeReply where
  eventType : EventType
deriving DecidableEq

/-- `EventTypeHandler.put` (`src/hermes/handlers/api.py` lines 466-520).
The request body is embedded as the optional `description` field; a body
without it raises the `KeyError`-mapped `BadRequest`.  The handler returns
the reply together with the resulting stored data (unchanged on error). -/
def eventTypePut (db : DB) (id : Nat) (body : Option String) :
    Except Err EventTypeReply × DB :=
  match findEventType db id with
  | none => (.error (.notFound ("No such EventType " ++ toString id ++ " found")), db)
  | some et =>
    match body with
    | none => (.error (.badRequest "Missing Required Argument: description"), db)
    | some description =>
      (.ok { eventType := { et with description := description } },
        eventTypeUpdate db id description)

/-- The reply written by `self.error({"message": "Not supported."})`. -/
structure InfoReply where
  message : String
deriving DecidableEq

/-- Modelled from the spec: the reply helpers of `ApiHandler`
(`hermes/handlers/util.py`, not under `src/`).  The call
`self.error(payload)` in `EventTypeHandler.delete` writes the payload as
the reply and completes the request without raising; per the spec this
reply is "a success response carrying an informational message", "an
explicit success variant carrying an informational payload", "a distinct
outcome kind, not ... an error path". -/
def writeInfoReply (message : String) : Except Err InfoReply :=
  .ok { message := message }

/-- `EventTypeHandler.delete` (`src/hermes/handlers/api.py` lines 522-545):
replies "Not supported." and never touches the stored data. -/
def eventTypeDelete (db : DB) (_id : Nat) : Except Err InfoReply × DB :=
  (writeInfoReply "Not supported.", db)

/-- Errors of the modelled `Host.create` before the handler re-classifies
them. -/
inductive CreateErr where
  | integrityError (msg : String)
  | validationError (msg : String)
deriving DecidableEq

/-- Modelled from the spec: `Host.create` of `hermes/models.py` (not under
`src/`) — "Create Host(hostname): fails `ValidationError` if hostname
missing/empty; fails `Conflict` if hostname already exists", the conflict
surfacing as the storage-layer `IntegrityError` of the hostname uniqueness
constraint.  On success the host is stored with the next assigned numeric
id. -/
def hostCreate (db : DB) (hostname : String) : Except CreateErr (Host × DB) :=
  if hostname = "" then
    .error (.validationError "hostname: cannot be empty")
  else if db.hosts.any (fun h => h.hostname = hostname) then
    .error (.integrityError "UNIQUE constraint failed: hosts.hostname")
  else
    let host : Host := { id := db.nextId, hostname := hostname }
    .ok (host, { db with hosts := db.hosts ++ [host], nextId := db.nextId + 1 })

/-- The 201 reply of `HostsHandler.post`: `Location` header plus the host
dict with its `href`. -/
structure CreatedHostReply where
  location : String
  host : Host
  href : String
deriving DecidableEq

/-- `HostsHandler.post` (`src/hermes/handlers/api.py` lines 18-68).  The
request body is embedded as the optional `hostname` field; `IntegrityError`
is re-raised as `Conflict`, `ValidationError` as `BadRequest`.  The handler
returns the reply together with the resulting stored data (unchanged on
error). -/
def hostsPost (db : DB) (body : Option String) : Except Err CreatedHostReply × DB :=
  match body with
  | none => (.error (.badRequest "Missing Required Argument: hostname"), db)
  | some hostname =>
    match hostCreate db hostname with
    | .error (.integrityError msg) => (.error (.conflict msg), db)
    | .error (.validationError msg) => (.error (.badRequest msg), db)
    | .ok (host, db') =>
      (.ok
        { location := "/api/v1/hosts/" ++ host.hostname
          host := host
          href := "/api/v1/hosts/" ++ host.hostname }, db')

/-! ### Helper lemmas about the handlers -/

theorem renderLaborsQuests_eq {db : DB} {expand : List String} :
    ∀ {ls : List Labor} {laborList : List (Rep Labor)} {questList : List (Rep Quest)},
      renderLaborsQuests db expand ls = some (laborList, questList) →
      laborList = ls.map (selectLabor expand) ∧
      ∃ qs : List Quest,
        List.Forall₂ (fun lb q => findQuest db lb.questId = some q) ls qs ∧
        questList = qs.map (selectQuest expand) := by
  intro ls
  induction ls with
  | nil =>
    intro laborList questList h
    simp only [renderLaborsQuests, Option.some.injEq, Prod.mk.injEq] at h
    obtain ⟨h1, h2⟩ := h
    exact ⟨h1.symm, [], List.Forall₂.nil, h2.symm⟩
  | cons lb rest ih =>
    intro laborList questList h
    simp only [renderLaborsQuests] at h
    cases hq : findQuest db lb.questId with
    | none => rw [hq] at h; cases h
    | some q =>
      rw [hq] at h
      cases hr : renderLaborsQuests db expand rest with
      | none => rw [hr] at h; cases h
      | some p =>
        obtain ⟨ls', qs'⟩ := p
        rw [hr] at h
        simp only [Option.some.injEq, Prod.mk.injEq] at h
        obtain ⟨h1, h2⟩ := h
        obtain ⟨ihl, qs, ihf, ihq⟩ := ih hr
        refine ⟨by simp [← h1, ihl], q :: qs, List.Forall₂.cons hq ihf, ?_⟩
        simp [← h2, ihq]

theorem renderLaborsQuests_isSome {db : DB} {expand : List String} :
    ∀ {ls : List Labor}, (∀ lb ∈ ls, (findQuest db lb.questId).isSome) →
      ∃ laborList questList, renderLaborsQuests db expand ls = some (laborList, questList) := by
  intro ls
  induction ls with
  | nil => exact fun _ => ⟨[], [], rfl⟩
  | cons lb rest ih =>
    intro hall
    have hq := hall lb (List.mem_cons_self lb rest)
    cases hfq : findQuest db lb.questId with
    | none => rw [hfq] at hq; cases hq
    | some q =>
      obtain ⟨ls', qs', hr⟩ := ih (fun x hx => hall x (List.mem_cons_of_mem lb hx))
      exact ⟨selectLabor expand lb :: ls', selectQuest expand q :: qs', by
        simp [renderLaborsQuests, hfq, hr]⟩

theorem hostGet_eq_some_ok {db : DB} {hn : String} {o l : Nat} {ex : List String}
    {doc : HostDoc} :
    hostGet db hn o l ex = some (.ok doc) ↔
    ∃ host, findHost db hn = some host ∧
    ∃ laborList questList,
      renderLaborsQuests db ex (laborsWindow db host o l) = some (laborList, questList) ∧
    ∃ lastEvent, (getLatestEvents db host).head? = some lastEvent ∧
    doc = { id := host.id, hostname := host.hostname, limit := l, offset := o,
            labors := laborList, quests := questList,
            lastEvent := toString lastEvent.timestamp,
            events := (eventsWindow db host o l).map (selectEvent ex) } := by
  constructor
  · intro h
    unfold hostGet at h
    split at h
    · simp at h
    next host hfind =>
      split at h
      · exact Option.noConfusion h
      next laborList questList hrq =>
        split at h
        · exact Option.noConfusion h
        next lastEvent hle =>
          simp only [Option.some.injEq, Except.ok.injEq] at h
          exact ⟨host, hfind, laborList, questList, hrq, lastEvent, hle, h.symm⟩
  · rintro ⟨host, hfind, laborList, questList, hrq, lastEvent, hle, rfl⟩
    simp [hostGet, hfind, hrq, hle]

theorem eventTypeGet_eq_ok {db : DB} {id o l : Nat} {ex : List String}
    {doc : EventTypeDoc} :
    eventTypeGet db id o l ex = .ok doc ↔
    ∃ et, findEventType db id = some et ∧
      doc = { id := et.id, category := et.category, state := et.state,
              description := et.description, limit := l, offset := o,
              events := (etEventsWindow db et o l).map (selectEvent ex),
              fate := (getAssociatedFates db et).map (selectFate ex) } := by
  constructor
  · intro h
    unfold eventTypeGet at h
    split at h
    · exact Except.noConfusion h
    next et hfind =>
      exact ⟨et, hfind, (Except.ok.inj h).symm⟩
  · rintro ⟨et, hfind, rfl⟩
    simp [eventTypeGet, hfind]

/-- The window of an ascending re-sort of a window cut from the
creation-ascending labor collection is just the contiguous slice. -/
theorem laborsWindow_eq_slice (db : DB) (host : Host) (o l : Nat) :
    laborsWindow db host o l = ((getLabors db host).drop o).take l := by
  unfold laborsWindow getLabors
  exact orderByKey_window_of_sorted (sorted_orderByKey _ _) o l

theorem mem_laborsWindow {db : DB} {host : Host} {o l : Nat} {lb : Labor}
    (h : lb ∈ laborsWindow db host o l) : lb ∈ db.labors := by
  rw [laborsWindow_eq_slice] at h
  have h₁ : lb ∈ (getLabors db host).drop o := (List.take_sublist _ _).subset h
  have h₂ : lb ∈ getLabors db host := (List.drop_sublist _ _).subset h₁
  have h₃ : lb ∈ db.labors.filter (fun lb => lb.hostId = host.id) :=
    (List.Perm.mem_iff (orderByKey_perm _ _)).1 h₂
  exact (List.mem_filter.mp h₃).1

theorem getLatestEvents_head_of_ne_nil {db : DB} {host : Host}
    (h : eventsForHost db host ≠ []) :
    ∃ e, (getLatestEvents db host).head? = some e ∧
      e.timestamp = maxKey (fun e => e.timestamp) (eventsForHost db host) := by
  unfold getLatestEvents
  exact head_orderByKeyDesc (fun e => e.timestamp) h

theorem eventsForHost_ne_nil_of_head {db : DB} {host : Host} {e : Event}
    (h : (getLatestEvents db host).head? = some e) : eventsForHost db host ≠ [] := by
  intro hnil
  rw [getLatestEvents, hnil] at h
  exact Option.noConfusion h

theorem selectLabor_full_or_ref (ex : List String) (lb : Labor) :
    ("labors" ∈ ex → selectLabor ex lb = Rep.full lb) ∧
    ("labors" ∉ ex → selectLabor ex lb = Rep.ref lb.id (laborHref lb.id)) :=
  ⟨fun h => if_pos h, fun h => if_neg h⟩

theorem selectQuest_full_or_ref (ex : List String) (q : Quest) :
    ("quests" ∈ ex → selectQuest ex q = Rep.full q) ∧
    ("quests" ∉ ex → selectQuest ex q = Rep.ref q.id (questHref q.id)) :=
  ⟨fun h => if_pos h, fun h => if_neg h⟩

theorem selectEvent_full_or_ref (ex : List String) (e : Event) :
    ("events" ∈ ex → selectEvent ex e = Rep.full e) ∧
    ("events" ∉ ex → selectEvent ex e = Rep.ref e.id (eventHref e.id)) :=
  ⟨fun h => if_pos h, fun h => if_neg h⟩

theorem selectFate_full_or_ref (ex : List String) (f : Fate) :
    ("fates" ∈ ex → selectFate ex f = Rep.full f) ∧
    ("fates" ∉ ex → selectFate ex f = Rep.ref f.id (fateHref f.id)) :=
  ⟨fun h => if_pos h, fun h => if_neg h⟩

theorem findEventType_update_list (l : List EventType) (id : Nat) (d : String) :
    ((l.map (fun et => if et.id = id then { et with description := d } else et)).filter
        (fun et => et.id = id)).head? =
      ((l.filter (fun et => et.id = id)).head?).map
        (fun et => { et with description := d }) := by
  induction l with
  | nil => rfl
  | cons e t ih =>
    by_cases he : e.id = id
    · simp [List.filter_cons, he]
    · simp [List.filter_cons, he, ih]

theorem findEventType_update (db : DB) (id : Nat) (d : String) :
    findEventType (eventTypeUpdate db id d) id =
      (findEventType db id).map (fun et => { et with description := d }) :=
  findEventType_update_list db.eventTypes id d

/-- Referential integrity of the labor→quest back-reference: every stored
labor has a resolvable owning quest. -/
def QuestRefsOk (db : DB) : Prop :=
  ∀ lb ∈ db.labors, (findQuest db lb.questId).isSome

instance (db : DB) : Decidable (QuestRefsOk db) :=
  List.decidableBAll _ db.labors

theorem hostGet_ok_of_preconditions {db : DB} {hn : String} {o l : Nat}
    {ex : List String} {host : Host} (hfind : findHost db hn = some host)
    (hev : eventsForHost db host ≠ [])
    (hq : ∀ lb ∈ laborsWindow db host o l, (findQuest db lb.questId).isSome) :
    ∃ doc, hostGet db hn o l ex = some (.ok doc) ∧ doc.hostname = host.hostname := by
  obtain ⟨laborList, questList, hrq⟩ := renderLaborsQuests_isSome hq
  obtain ⟨e, hle, _⟩ := getLatestEvents_head_of_ne_nil hev
  exact ⟨_, hostGet_eq_some_ok.mpr ⟨host, hfind, laborList, questList, hrq, e, hle, rfl⟩, rfl⟩

theorem filter_eq_nil_of_findHost_none {db : DB} {hn : String}
    (h : findHost db hn = none) :
    db.hosts.filter (fun x => x.hostname = hn) = [] := by
  unfold findHost at h
  cases hf : db.hosts.filter (fun x => x.hostname = hn) with
  | nil => rfl
  | cons a t => rw [hf] at h; exact Option.noConfusion h

theorem hostCreate_fresh {db : DB} {hn : String} (hne : hn ≠ "")
    (hfresh : findHost db hn = none) :
    hostCreate db hn = .ok ({ id := db.nextId, hostname := hn },
      { db with
        hosts := db.hosts ++ [{ id := db.nextId, hostname := hn }],
        nextId := db.nextId + 1 }) := by
  have hfilter := filter_eq_nil_of_findHost_none hfresh
  have hany : db.hosts.any (fun h => h.hostname = hn) = false := by
    rw [List.any_eq_false]
    intro a ha hcontra
    have hmem : a ∈ db.hosts.filter (fun x => x.hostname = hn) :=
      List.mem_filter.mpr ⟨ha, hcontra⟩
    rw [hfilter] at hmem
    cases hmem
  unfold hostCreate
  rw [if_neg hne]
  simp [hany]

theorem hostCreate_dup {db : DB} {hn : String} (hne : hn ≠ "")
    (hdup : ∃ h ∈ db.hosts, h.hostname = hn) :
    hostCreate db hn = .error (.integrityError "UNIQUE constraint failed: hosts.hostname") := by
  have hany : db.hosts.any (fun h => h.hostname = hn) = true := by
    rw [List.any_eq_true]
    obtain ⟨h, hm, he⟩ := hdup
    exact ⟨h, hm, by simp [he]⟩
  unfold hostCreate
  rw [if_neg hne]
  simp [hany]

/-! ### Concrete example data for witnesses -/

/-- A small concrete store: one host with two labors sharing one quest and
two events, one event type with two fates. -/
def exDB : DB :=
  { hosts := [{ id := 1, hostname := "alpha" }]
    eventTypes := [{ id := 1, category := "system-reboot", state := "required", description := "d" }]
    events := [{ id := 1, hostId := 1, eventTypeId := 1, timestamp := 5, note := "a" },
               { id := 2, hostId := 1, eventTypeId := 1, timestamp := 9, note := "b" }]
    labors := [{ id := 1, hostId := 1, questId := 7, creation_time := 10 },
               { id := 2, hostId := 1, questId := 7, creation_time := 20 }]
    quests := [{ id := 7 }]
    fates := [{ id := 1, eventTypeId := 1 }, { id := 2, eventTypeId := 1 }]
    nextId := 2 }

/-- The composite document of `GET /api/v1/hosts/alpha/?offset=0&limit=10`. -/
def exHostDoc : HostDoc :=
  { id := 1, hostname := "alpha", limit := 10, offset := 0
    labors := [Rep.ref 1 "/api/v1/labors/1", Rep.ref 2 "/api/v1/labors/2"]
    quests := [Rep.ref 7 "/api/v1/quests/7", Rep.ref 7 "/api/v1/quests/7"]
    lastEvent := "9"
    events := [Rep.ref 1 "/api/v1/events/1", Rep.ref 2 "/api/v1/events/2"] }

/-- The composite document of `GET /api/v1/hosts/alpha/?offset=1&limit=1`:
the events window holds only the older event, yet `lastEvent` is still the
timestamp of the newest one. -/
def exHostDocW : HostDoc :=
  { id := 1, hostname := "alpha", limit := 1, offset := 1
    labors := [Rep.ref 2 "/api/v1/labors/2"]
    quests := [Rep.ref 7 "/api/v1/quests/7"]
    lastEvent := "9"
    events := [Rep.ref 1 "/api/v1/events/1"] }

/-- The composite document of `GET /api/v1/eventtypes/1/?offset=0&limit=10`. -/
def exETDoc : EventTypeDoc :=
  { id := 1, category := "system-reboot", state := "required", description := "d"
    limit := 10, offset := 0
    events := [Rep.ref 1 "/api/v1/events/1", Rep.ref 2 "/api/v1/events/2"]
    fate := [Rep.ref 1 "/api/v1/fates/1", Rep.ref 2 "/api/v1/fates/2"] }

/-- The composite document of `GET /api/v1/eventtypes/1/?offset=1&limit=1`:
the events window shrinks but the `fate` array does not. -/
def exETDocW : EventTypeDoc :=
  { id := 1, category := "system-reboot", state := "required", description := "d"
    limit := 1, offset := 1
    events := [Rep.ref 1 "/api/v1/events/1"]
    fate := [Rep.ref 1 "/api/v1/fates/1", Rep.ref 2 "/api/v1/fates/2"] }

/-! ### Claim theorems -/

/-- C1: for every id (whether or not an EventType with that id exists),
`DELETE /eventtypes/{id}` returns a success reply (no request error is
raised) carrying the informational message "Not supported." and performs no
mutation: the store — in particular every stored EventType — is left
unmodified. -/
theorem eventtype_delete_informational_noop (db : DB) (id : Nat) :
    eventTypeDelete db id = (Except.ok { message := "Not supported." }, db) ∧
    (eventTypeDelete db id).2.eventTypes = db.eventTypes :=
  ⟨rfl, rfl⟩

/-- C2: for every existing Host and every (offset, limit), the `lastEvent`
field of the composite document is the textual form of the maximal event
timestamp of the host — a value independent of offset and limit, hence
unchanged even when the paginated events window excludes the latest
event. -/
theorem host_lastEvent_is_max_timestamp (db : DB) (hn : String) (o l : Nat)
    (ex : List String) (doc : HostDoc)
    (h : hostGet db hn o l ex = some (.ok doc)) :
    ∃ host, findHost db hn = some host ∧
      doc.lastEvent = toString (maxKey (fun e => e.timestamp) (eventsForHost db host)) := by
  obtain ⟨host, hfind, laborList, questList, hrq, le, hle, rfl⟩ := hostGet_eq_some_ok.mp h
  refine ⟨host, hfind, ?_⟩
  have hne := eventsForHost_ne_nil_of_head hle
  obtain ⟨e, he, hk⟩ := getLatestEvents_head_of_ne_nil hne
  rw [hle] at he
  cases Option.some.inj he
  simp [hk]

/-- C2 witness: in the concrete store, with a window (offset 1, limit 1)
whose events array excludes the newest event, `lastEvent` still renders the
maximal timestamp 9. -/
theorem host_lastEvent_is_max_timestamp_witness :
    hostGet exDB "alpha" 1 1 [] = some (.ok exHostDocW) ∧
    ∃ host, findHost exDB "alpha" = some host ∧
      exHostDocW.lastEvent =
        toString (maxKey (fun e => e.timestamp) (eventsForHost exDB host)) :=
  ⟨rfl, host_lastEvent_is_max_timestamp exDB "alpha" 1 1 [] exHostDocW rfl⟩

/-- C9: for every existing EventType and every (offset, limit), the `fate`
entry of the composite document (an array under that singular key) is the
full, unpaginated set of fates associated with the event type — limit and
offset are not applied to it, so any two windows agree on it. -/
theorem eventtype_fates_unpaginated (db : DB) (id o l o' l' : Nat)
    (ex : List String) (doc doc' : EventTypeDoc)
    (h : eventTypeGet db id o l ex = .ok doc)
    (h' : eventTypeGet db id o' l' ex = .ok doc') :
    (∃ et, findEventType db id = some et ∧
      doc.fate = (getAssociatedFates db et).map (selectFate ex)) ∧
    doc.fate = doc'.fate := by
  obtain ⟨et, hfind, rfl⟩ := eventTypeGet_eq_ok.mp h
  obtain ⟨et', hfind', rfl⟩ := eventTypeGet_eq_ok.mp h'
  rw [hfind] at hfind'
  cases Option.some.inj hfind'
  exact ⟨⟨et, hfind, rfl⟩, rfl⟩

/-- C9 witness: the windows (0, 10) and (1, 1) produce different events
arrays but the same two-element `fate` array. -/
theorem eventtype_fates_unpaginated_witness :
    eventTypeGet exDB 1 0 10 [] = .ok exETDoc ∧
    eventTypeGet exDB 1 1 1 [] = .ok exETDocW ∧
    ((∃ et, findEventType exDB 1 = some et ∧
        exETDoc.fate = (getAssociatedFates exDB et).map (selectFate [])) ∧
      exETDoc.fate = exETDocW.fate) :=
  ⟨rfl, rfl, eventtype_fates_unpaginated exDB 1 0 10 1 1 [] exETDoc exETDocW rfl rfl⟩

/-- C10: rendering the composite Host document reads the timestamp of the
first row of the latest-events query without checking for absence, so for
an existing host a success result exists only when the host has at least
one recorded event; under that precondition the unguarded `.first()` access
is safe (it yields a row), and together with resolvable quest
back-references for the windowed labors the composite document is
defined. -/
theorem host_get_defined_requires_event (db : DB) (hn : String) (o l : Nat)
    (ex : List String) (host : Host) (hfind : findHost db hn = some host) :
    ((∃ doc, hostGet db hn o l ex = some (.ok doc)) → eventsForHost db host ≠ []) ∧
    (eventsForHost db host ≠ [] → ∃ e, (getLatestEvents db host).head? = some e) ∧
    (eventsForHost db host ≠ [] →
      (∀ lb ∈ laborsWindow db host o l, (findQuest db lb.questId).isSome) →
      ∃ doc, hostGet db hn o l ex = some (.ok doc)) := by
  refine ⟨?_, ?_, ?_⟩
  · rintro ⟨doc, h⟩
    obtain ⟨host', hfind', _, _, _, le, hle, _⟩ := hostGet_eq_some_ok.mp h
    rw [hfind] at hfind'
    cases Option.some.inj hfind'
    exact eventsForHost_ne_nil_of_head hle
  · intro hne
    obtain ⟨e, he, _⟩ := getLatestEvents_head_of_ne_nil hne
    exact ⟨e, he⟩
  · intro hne hq
    obtain ⟨doc, hdoc, _⟩ := hostGet_ok_of_preconditions hfind hne hq
    exact ⟨doc, hdoc⟩

/-- C10 witness: the concrete host has events, the first latest-events row
exists, and the composite document is defined. -/
theorem host_get_defined_requires_event_witness :
    findHost exDB "alpha" = some { id := 1, hostname := "alpha" } ∧
    (((∃ doc, hostGet exDB "alpha" 0 10 [] = some (.ok doc)) →
        eventsForHost exDB { id := 1, hostname := "alpha" } ≠ []) ∧
      (eventsForHost exDB { id := 1, hostname := "alpha" } ≠ [] →
        ∃ e, (getLatestEvents exDB { id := 1, hostname := "alpha" }).head? = some e) ∧
      (eventsForHost exDB { id := 1, hostname := "alpha" } ≠ [] →
        (∀ lb ∈ laborsWindow exDB { id := 1, hostname := "alpha" } 0 10,
          (findQuest exDB lb.questId).isSome) →
        ∃ doc, hostGet exDB "alpha" 0 10 [] = some (.ok doc))) :=
  ⟨rfl, host_get_defined_requires_event exDB "alpha" 0 10 []
    { id := 1, hostname := "alpha" } rfl⟩

/-- C7: `PUT /eventtypes/{id}` with a description in the body succeeds,
changes only that EventType and only its description field (category and
state unchanged, all other stored entities unchanged); a body omitting
description fails with the Missing Required Argument validation error and
leaves the store exactly unchanged. -/
theorem eventtype_put_updates_only_description (db : DB) (id : Nat)
    (et : EventType) (d : String) (hfind : findEventType db id = some et) :
    (eventTypePut db id (some d) =
        (.ok { eventType := { et with description := d } }, eventTypeUpdate db id d) ∧
      findEventType (eventTypeUpdate db id d) id = some { et with description := d } ∧
      ({ et with description := d } : EventType).category = et.category ∧
      ({ et with description := d } : EventType).state = et.state ∧
      (eventTypeUpdate db id d).hosts = db.hosts ∧
      (eventTypeUpdate db id d).events = db.events ∧
      (eventTypeUpdate db id d).labors = db.labors ∧
      (eventTypeUpdate db id d).quests = db.quests ∧
      (eventTypeUpdate db id d).fates = db.fates ∧
      (eventTypeUpdate db id d).eventTypes.length = db.eventTypes.length ∧
      (∀ e ∈ db.eventTypes, e.id ≠ id → e ∈ (eventTypeUpdate db id d).eventTypes)) ∧
    eventTypePut db id none =
      (.error (.badRequest "Missing Required Argument: description"), db) := by
  constructor
  · refine ⟨?_, ?_, rfl, rfl, rfl, rfl, rfl, rfl, rfl, ?_, ?_⟩
    · simp [eventTypePut, hfind]
    · rw [findEventType_update, hfind]
      rfl
    · simp [eventTypeUpdate]
    · intro e hm hne
      unfold eventTypeUpdate
      simp only [List.mem_map]
      exact ⟨e, hm, by simp [hne]⟩
  · simp [eventTypePut, hfind]

/-- C7 witness: updating the description of event type 1 in the concrete
store, and the failing no-description request. -/
theorem eventtype_put_updates_only_description_witness :
    findEventType exDB 1 =
      some { id := 1, category := "system-reboot", state := "required", description := "d" } ∧
    ((eventTypePut exDB 1 (some "new") =
        (.ok { eventType := { id := 1, category := "system-reboot", state := "required",
                              description := "new" } }, eventTypeUpdate exDB 1 "new") ∧
      findEventType (eventTypeUpdate exDB 1 "new") 1 =
        some { id := 1, category := "system-reboot", state := "required", description := "new" } ∧
      ({ id := 1, category := "system-reboot", state := "required",
         description := "new" } : EventType).category = "system-reboot" ∧
      ({ id := 1, category := "system-reboot", state := "required",
         description := "new" } : EventType).state = "required" ∧
      (eventTypeUpdate exDB 1 "new").hosts = exDB.hosts ∧
      (eventTypeUpdate exDB 1 "new").events = exDB.events ∧
      (eventTypeUpdate exDB 1 "new").labors = exDB.labors ∧
      (eventTypeUpdate exDB 1 "new").quests = exDB.quests ∧
      (eventTypeUpdate exDB 1 "new").fates = exDB.fates ∧
      (eventTypeUpdate exDB 1 "new").eventTypes.length = exDB.eventTypes.length ∧
      (∀ e ∈ exDB.eventTypes, e.id ≠ 1 → e ∈ (eventTypeUpdate exDB 1 "new").eventTypes)) ∧
    eventTypePut exDB 1 none =
      (.error (.badRequest "Missing Required Argument: description"), exDB)) :=
  ⟨rfl, eventtype_put_updates_only_description exDB 1
    { id := 1, category := "system-reboot", state := "required", description := "d" } "new" rfl⟩

/-- C4: within a single composite Host request the pagination pair is
resolved once — the document echoes the single (offset, limit) — and that
same pair windows every relation: the labors array renders exactly the
(offset, limit) labor window, the quests array has one entry per labor of
that same window, and the events array renders exactly the (offset, limit)
event window.  No relation gets an independent window. -/
theorem host_shared_pagination_window (db : DB) (hn : String) (o l : Nat)
    (ex : List String) (doc : HostDoc)
    (h : hostGet db hn o l ex = some (.ok doc)) :
    ∃ host, findHost db hn = some host ∧
      doc.offset = o ∧ doc.limit = l ∧
      doc.labors = (laborsWindow db host o l).map (selectLabor ex) ∧
      doc.quests.length = (laborsWindow db host o l).length ∧
      doc.events = (eventsWindow db host o l).map (selectEvent ex) := by
  obtain ⟨host, hfind, laborList, questList, hrq, le, hle, rfl⟩ := hostGet_eq_some_ok.mp h
  obtain ⟨hlab, qlist, hfa, hq⟩ := renderLaborsQuests_eq hrq
  refine ⟨host, hfind, rfl, rfl, by simp [hlab], ?_, rfl⟩
  have hlen : (laborsWindow db host o l).length = qlist.length := hfa.length_eq
  simp [hq, hlen]

/-- C4 witness: the document for (offset 1, limit 1) in the concrete store
windows labors, quests and events with that one pair. -/
theorem host_shared_pagination_window_witness :
    hostGet exDB "alpha" 1 1 [] = some (.ok exHostDocW) ∧
    ∃ host, findHost exDB "alpha" = some host ∧
      exHostDocW.offset = 1 ∧ exHostDocW.limit = 1 ∧
      exHostDocW.labors = (laborsWindow exDB host 1 1).map (selectLabor []) ∧
      exHostDocW.quests.length = (laborsWindow exDB host 1 1).length ∧
      exHostDocW.events = (eventsWindow exDB host 1 1).map (selectEvent []) :=
  ⟨rfl, host_shared_pagination_window exDB "alpha" 1 1 [] exHostDocW rfl⟩

/-- The labor collection as the spec words it for the labors window claim:
the Labor collection of the host, ordered by creation time ascending.
Stated independently of the handler embedding, for comparison. -/
def specLaborsOrdered (db : DB) (host : Host) : List Labor :=
  orderByKey (fun lb => lb.creation_time) (db.labors.filter (fun lb => lb.hostId = host.id))

/-- C5: for every existing Host and every valid (offset, limit), the
rendered labors window is the contiguous slice [offset, offset+limit) of
the Labor collection of the host ordered by creation time ascending —
i.e. ordering applied before windowing. -/
theorem host_labors_window_is_slice (db : DB) (hn : String) (o l : Nat)
    (ex : List String) (doc : HostDoc) (_hvalid : 0 < l)
    (h : hostGet db hn o l ex = some (.ok doc)) :
    ∃ host, findHost db hn = some host ∧
      doc.labors = (((specLaborsOrdered db host).drop o).take l).map (selectLabor ex) := by
  obtain ⟨host, hfind, laborList, questList, hrq, le, hle, rfl⟩ := hostGet_eq_some_ok.mp h
  obtain ⟨hlab, _, _, _⟩ := renderLaborsQuests_eq hrq
  have hwin : laborsWindow db host o l = ((specLaborsOrdered db host).drop o).take l :=
    laborsWindow_eq_slice db host o l
  refine ⟨host, hfind, ?_⟩
  simp [hlab, hwin]

/-- C5 witness: with (offset 1, limit 1) the labors array is the slice
[1, 2) of the creation-ordered labor collection. -/
theorem host_labors_window_is_slice_witness :
    (0 : Nat) < 1 ∧
    hostGet exDB "alpha" 1 1 [] = some (.ok exHostDocW) ∧
    ∃ host, findHost exDB "alpha" = some host ∧
      exHostDocW.labors =
        (((specLaborsOrdered exDB host).drop 1).take 1).map (selectLabor []) :=
  ⟨by decide, rfl, host_labors_window_is_slice exDB "alpha" 1 1 [] exHostDocW (by decide) rfl⟩

/-- C3: the rendered labors and quests arrays of the composite Host
document have equal length — one quest entry per windowed labor, in the
same order, not deduplicated even when labors share a quest — and at every
index the quest entry renders exactly the quest owning the labor entry at
the same index. -/
theorem host_labors_quests_paired (db : DB) (hn : String) (o l : Nat)
    (ex : List String) (doc : HostDoc)
    (h : hostGet db hn o l ex = some (.ok doc)) :
    doc.labors.length = doc.quests.length ∧
    (∃ host, findHost db hn = some host ∧
      doc.quests.length = (laborsWindow db host o l).length) ∧
    ∀ i (h1 : i < doc.labors.length) (h2 : i < doc.quests.length),
      ∃ lb q, findQuest db lb.questId = some q ∧
        doc.labors.get ⟨i, h1⟩ = selectLabor ex lb ∧
        doc.quests.get ⟨i, h2⟩ = selectQuest ex q := by
  obtain ⟨host, hfind, laborList, questList, hrq, le, hle, rfl⟩ := hostGet_eq_some_ok.mp h
  obtain ⟨hlab, qlist, hfa, hq⟩ := renderLaborsQuests_eq hrq
  obtain ⟨hlen, hget⟩ := List.forall₂_iff_get.mp hfa
  refine ⟨?_, ⟨host, hfind, ?_⟩, ?_⟩
  · simp [hlab, hq, hlen]
  · simp [hq, hlen]
  · intro i h1 h2
    have h1' : i < (laborsWindow db host o l).length := by
      simpa [hlab] using h1
    have h2' : i < qlist.length := by
      simpa [hq] using h2
    refine ⟨(laborsWindow db host o l).get ⟨i, h1'⟩, qlist.get ⟨i, h2'⟩,
      hget i h1' h2', ?_, ?_⟩
    · simp [hlab, List.get_eq_getElem, List.getElem_map]
    · simp [hq, List.get_eq_getElem, List.getElem_map]

/-- C3 witness: in the concrete store the two windowed labors share quest 7
and the quests array repeats it — two entries, paired index by index. -/
theorem host_labors_quests_paired_witness :
    hostGet exDB "alpha" 0 10 [] = some (.ok exHostDoc) ∧
    (exHostDoc.labors.length = exHostDoc.quests.length ∧
      (∃ host, findHost exDB "alpha" = some host ∧
        exHostDoc.quests.length = (laborsWindow exDB host 0 10).length) ∧
      ∀ i (h1 : i < exHostDoc.labors.length) (h2 : i < exHostDoc.quests.length),
        ∃ lb q, findQuest exDB lb.questId = some q ∧
          exHostDoc.labors.get ⟨i, h1⟩ = selectLabor [] lb ∧
          exHostDoc.quests.get ⟨i, h2⟩ = selectQuest [] q) :=
  ⟨rfl, host_labors_quests_paired exDB "alpha" 0 10 [] exHostDoc rfl⟩

/-- C6: every related-entity entry of a composite response — labors, quests
and events of a Host document, events and fates of an EventType document —
is the full representation exactly when its relation name is in the
expand-set, and otherwise the minimal reference carrying exactly the
numeric id and canonical href of an entity.  `Rep` has exactly these two
forms, so an entry is never both and never absent. -/
theorem composite_entries_full_or_ref (db : DB) (o l : Nat) (ex : List String) :
    (∀ hn doc, hostGet db hn o l ex = some (.ok doc) →
      (∀ r ∈ doc.labors, ("labors" ∈ ex → ∃ lb, r = Rep.full lb) ∧
        ("labors" ∉ ex → ∃ lb : Labor, r = Rep.ref lb.id (laborHref lb.id))) ∧
      (∀ r ∈ doc.quests, ("quests" ∈ ex → ∃ q, r = Rep.full q) ∧
        ("quests" ∉ ex → ∃ q : Quest, r = Rep.ref q.id (questHref q.id))) ∧
      (∀ r ∈ doc.events, ("events" ∈ ex → ∃ e, r = Rep.full e) ∧
        ("events" ∉ ex → ∃ e : Event, r = Rep.ref e.id (eventHref e.id)))) ∧
    (∀ id doc, eventTypeGet db id o l ex = .ok doc →
      (∀ r ∈ doc.events, ("events" ∈ ex → ∃ e, r = Rep.full e) ∧
        ("events" ∉ ex → ∃ e : Event, r = Rep.ref e.id (eventHref e.id))) ∧
      (∀ r ∈ doc.fate, ("fates" ∈ ex → ∃ f, r = Rep.full f) ∧
        ("fates" ∉ ex → ∃ f : Fate, r = Rep.ref f.id (fateHref f.id)))) := by
  constructor
  · intro hn doc h
    obtain ⟨host, hfind, laborList, questList, hrq, le, hle, hdoc⟩ := hostGet_eq_some_ok.mp h
    obtain ⟨hlab, qlist, hfa, hq⟩ := renderLaborsQuests_eq hrq
    have hL : doc.labors = (laborsWindow db host o l).map (selectLabor ex) := by
      rw [hdoc, ← hlab]
    have hQ : doc.quests = qlist.map (selectQuest ex) := by
      rw [hdoc, ← hq]
    have hE : doc.events = (eventsWindow db host o l).map (selectEvent ex) := by
      rw [hdoc]
    refine ⟨?_, ?_, ?_⟩
    · intro r hr
      rw [hL] at hr
      obtain ⟨lb, _, rfl⟩ := List.mem_map.mp hr
      exact ⟨fun hm => ⟨lb, (selectLabor_full_or_ref ex lb).1 hm⟩,
        fun hm => ⟨lb, (selectLabor_full_or_ref ex lb).2 hm⟩⟩
    · intro r hr
      rw [hQ] at hr
      obtain ⟨q, _, rfl⟩ := List.mem_map.mp hr
      exact ⟨fun hm => ⟨q, (selectQuest_full_or_ref ex q).1 hm⟩,
        fun hm => ⟨q, (selectQuest_full_or_ref ex q).2 hm⟩⟩
    · intro r hr
      rw [hE] at hr
      obtain ⟨e, _, rfl⟩ := List.mem_map.mp hr
      exact ⟨fun hm => ⟨e, (selectEvent_full_or_ref ex e).1 hm⟩,
        fun hm => ⟨e, (selectEvent_full_or_ref ex e).2 hm⟩⟩
  · intro id doc h
    obtain ⟨et, hfind, hdoc⟩ := eventTypeGet_eq_ok.mp h
    have hE : doc.events = (etEventsWindow db et o l).map (selectEvent ex) := by
      rw [hdoc]
    have hF : doc.fate = (getAssociatedFates db et).map (selectFate ex) := by
      rw [hdoc]
    constructor
    · intro r hr
      rw [hE] at hr
      obtain ⟨e, _, rfl⟩ := List.mem_map.mp hr
      exact ⟨fun hm => ⟨e, (selectEvent_full_or_ref ex e).1 hm⟩,
        fun hm => ⟨e, (selectEvent_full_or_ref ex e).2 hm⟩⟩
    · intro r hr
      rw [hF] at hr
      obtain ⟨f, _, rfl⟩ := List.mem_map.mp hr
      exact ⟨fun hm => ⟨f, (selectFate_full_or_ref ex f).1 hm⟩,
        fun hm => ⟨f, (selectFate_full_or_ref ex f).2 hm⟩⟩

/-- C6 witness: applied to the concrete store without expansion, the Host
document entries are all minimal references. -/
theorem composite_entries_full_or_ref_witness :
    hostGet exDB "alpha" 0 10 [] = some (.ok exHostDoc) ∧
    ((∀ r ∈ exHostDoc.labors, ("labors" ∈ ([] : List String) → ∃ lb, r = Rep.full lb) ∧
        ("labors" ∉ ([] : List String) → ∃ lb : Labor, r = Rep.ref lb.id (laborHref lb.id))) ∧
      (∀ r ∈ exHostDoc.quests, ("quests" ∈ ([] : List String) → ∃ q, r = Rep.full q) ∧
        ("quests" ∉ ([] : List String) → ∃ q : Quest, r = Rep.ref q.id (questHref q.id))) ∧
      (∀ r ∈ exHostDoc.events, ("events" ∈ ([] : List String) → ∃ e, r = Rep.full e) ∧
        ("events" ∉ ([] : List String) → ∃ e : Event, r = Rep.ref e.id (eventHref e.id)))) :=
  ⟨rfl, (composite_entries_full_or_ref exDB 0 10 []).1 "alpha" exHostDoc rfl⟩

/-- An empty store. -/
def emptyDB : DB :=
  { hosts := [], eventTypes := [], events := [], labors := [], quests := [],
    fates := [], nextId := 1 }

/-- C8 counterexample: creating host "h1" in the empty store succeeds, but
the composite GET of the freshly created host — which has no recorded
events — has no defined result at all (`last_event.timestamp` dereferences
`None`), so fetching it does not return a document with hostname "h1" as
the claim states. -/
theorem host_create_roundtrip_counterexample :
    (hostsPost emptyDB (some "h1")).1 =
      Except.ok { location := "/api/v1/hosts/h1",
                  host := { id := 1, hostname := "h1" },
                  href := "/api/v1/hosts/h1" } ∧
    hostGet (hostsPost emptyDB (some "h1")).2 "h1" 0 10 [] = none :=
  ⟨rfl, rfl⟩

/-- C8 (amended): creating a Host with hostname "h1" stores it under a
fresh assigned numeric id, hostname lookup then finds exactly that host,
and a second creation with the same hostname fails with Conflict and
leaves the store (hence the first host) unchanged; the composite GET
returns a document with hostname "h1" provided the host has at least one
recorded event — with no events the composite GET has no defined result. -/
theorem host_create_roundtrip_amended (db : DB)
    (hfresh : findHost db "h1" = none) (hq : QuestRefsOk db) :
    ∃ host db',
      hostsPost db (some "h1") =
        (Except.ok { location := "/api/v1/hosts/h1",
                     host := host,
                     href := "/api/v1/hosts/h1" }, db') ∧
      host.hostname = "h1" ∧ host.id = db.nextId ∧
      findHost db' "h1" = some host ∧
      hostsPost db' (some "h1") =
        (Except.error (Err.conflict "UNIQUE constraint failed: hosts.hostname"), db') ∧
      (∀ o l ex, eventsForHost db' host ≠ [] →
        ∃ doc, hostGet db' "h1" o l ex = some (.ok doc) ∧ doc.hostname = "h1") := by
  have hcreate := @hostCreate_fresh db "h1" (by decide) hfresh
  refine ⟨{ id := db.nextId, hostname := "h1" },
    { db with
      hosts := db.hosts ++ [{ id := db.nextId, hostname := "h1" }],
      nextId := db.nextId + 1 }, ?_, rfl, rfl, ?_, ?_, ?_⟩
  · simp only [hostsPost, hcreate]
    rfl
  · have hnil : db.hosts.filter (fun x => x.hostname = "h1") = [] :=
      filter_eq_nil_of_findHost_none hfresh
    simp [findHost, List.filter_append, hnil]
  · have hdup := @hostCreate_dup
      { db with
        hosts := db.hosts ++ [{ id := db.nextId, hostname := "h1" }],
        nextId := db.nextId + 1 }
      "h1" (by decide) ⟨{ id := db.nextId, hostname := "h1" }, by simp, rfl⟩
    simp only [hostsPost, hdup]
  · intro o l ex hev
    have hnil : db.hosts.filter (fun x => x.hostname = "h1") = [] :=
      filter_eq_nil_of_findHost_none hfresh
    have hfind' : findHost
        { db with
          hosts := db.hosts ++ [{ id := db.nextId, hostname := "h1" }],
          nextId := db.nextId + 1 } "h1" = some { id := db.nextId, hostname := "h1" } := by
      simp [findHost, List.filter_append, hnil]
    have hqw : ∀ lb ∈ laborsWindow
        { db with
          hosts := db.hosts ++ [{ id := db.nextId, hostname := "h1" }],
          nextId := db.nextId + 1 } { id := db.nextId, hostname := "h1" } o l,
        (findQuest db lb.questId).isSome := by
      intro lb hlb
      exact hq lb (mem_laborsWindow hlb)
    obtain ⟨doc, hdoc, hname⟩ := hostGet_ok_of_preconditions hfind' hev hqw
    exact ⟨doc, hdoc, hname⟩

/-- Store for the C8 witness: no hosts yet, but one event already recorded
against the host id the store will assign next — so the freshly created
host satisfies the at-least-one-event precondition. -/
def c8WitnessDB : DB :=
  { hosts := [], eventTypes := [],
    events := [{ id := 1, hostId := 1, eventTypeId := 1, timestamp := 5, note := "n" }],
    labors := [], quests := [], fates := [], nextId := 1 }

/-- C8 witness: the amended round trip at the concrete store, whose
post-creation composite GET is defined. -/
theorem host_create_roundtrip_amended_witness :
    findHost c8WitnessDB "h1" = none ∧ QuestRefsOk c8WitnessDB ∧
    (hostGet (hostsPost c8WitnessDB (some "h1")).2 "h1" 0 10 []).isSome = true ∧
    (∃ host db',
      hostsPost c8WitnessDB (some "h1") =
        (Except.ok { location := "/api/v1/hosts/h1",
                     host := host,
                     href := "/api/v1/hosts/h1" }, db') ∧
      host.hostname = "h1" ∧ host.id = c8WitnessDB.nextId ∧
      findHost db' "h1" = some host ∧
      hostsPost db' (some "h1") =
        (Except.error (Err.conflict "UNIQUE constraint failed: hosts.hostname"), db') ∧
      (∀ o l ex, eventsForHost db' host ≠ [] →
        ∃ doc, hostGet db' "h1" o l ex = some (.ok doc) ∧ doc.hostname = "h1")) :=
  ⟨rfl, by decide, rfl, host_create_roundtrip_amended c8WitnessDB rfl (by decide)⟩

end Hermes
